import Mathlib

/-!
Chirpy: the user store and the HTTP workflows around it

A shallow embedding of `internal/database/users.go` and of the handlers in
`handlers/users.go`, `handlers/login.go` and `handlers/chirps.go`.

* A Go `map[int]V` is a `GoMap V`: a list of key/value entries with pairwise
  distinct keys.  The order of the list stands for the order in which the Go
  runtime happens to iterate the map; statements quantify over every map, hence
  over every order.
* Go's `int` is `Int`.  The only arithmetic is `len(m) + 1`, which cannot leave
  the 64-bit range for a map that fits in memory.
* A store call `f(args) (result, error)` that rewrites the file becomes a function
  returning `Except DBError result × DB`: the outcome and the store afterwards.
* Functions of other packages (`bcrypt`, JWT signing, header parsing, Unicode
  case mapping) are parameters, collected in `Auth` or passed directly.
* Two concurrent `CreateUser` calls are a step relation: each call is split at its
  two file accesses, `loadDB` and `writeDB`, and a schedule says which call makes
  its next access.
-/

namespace Chirpy

/-! ## Errors -/

/-- The error values the database package can return.  `ErrNotExist` and
`ErrAlreadyExists` are the two package-level sentinels (the first is the spec's
`NotFoundError`, declared next to `loadDB`), `Errorf msg` is a fresh error built
by `fmt.Errorf` without `%w` (it wraps nothing), and `IOError` is a failure of
reading or writing the backing file. -/
inductive DBError where
  | ErrNotExist
  | ErrAlreadyExists
  | Errorf (msg : String)
  | IOError
  deriving DecidableEq, Repr

/-- Go's `errors.Is(err, target)` for the errors above: none of them wraps another
error, so the chain walk stops at the first comparison `err == target`. -/
def errorsIs (err target : DBError) : Bool :=
  decide (err = target)

/-! ## Go maps with integer keys -/

/-- A `map[int]V`: entries with pairwise distinct keys. -/
structure GoMap (V : Type) where
  entries : List (Int × V)
  nodup : (entries.map Prod.fst).Nodup

namespace GoMap

variable {V : Type}

/-- The empty map, `make(map[int]V)`. -/
def empty : GoMap V := ⟨[], List.nodup_nil⟩

/-- The `len(m)` builtin. -/
def len (m : GoMap V) : Nat := m.entries.length

/-- The two-valued index expression `v, ok := m[k]`; `none` is `ok == false`. -/
def get? (m : GoMap V) (k : Int) : Option V := m.entries.lookup k

/-- The entry list after the assignment `m[k] = v`: the value under an existing
key is replaced where it stands, a new key is added. -/
def setEntries (k : Int) (v : V) : List (Int × V) → List (Int × V)
  | [] => [(k, v)]
  | e :: rest => if e.1 = k then (k, v) :: rest else e :: setEntries k v rest

theorem keys_setEntries (k : Int) (v : V) (l : List (Int × V)) (x : Int) :
    x ∈ (setEntries k v l).map Prod.fst ↔ x = k ∨ x ∈ l.map Prod.fst := by
  induction l with
  | nil => simp [setEntries]
  | cons e rest ih =>
    unfold setEntries
    by_cases h : e.1 = k
    · simp only [h, if_true, List.map_cons, List.mem_cons]
      constructor
      · rintro (h1 | h1)
        · exact Or.inl h1
        · exact Or.inr (Or.inr h1)
      · rintro (h1 | h1 | h1)
        · exact Or.inl h1
        · exact Or.inl h1
        · exact Or.inr h1
    · simp only [h, if_false, List.map_cons, List.mem_cons, ih]
      tauto

theorem nodup_setEntries (k : Int) (v : V) (l : List (Int × V))
    (h : (l.map Prod.fst).Nodup) : ((setEntries k v l).map Prod.fst).Nodup := by
  induction l with
  | nil => simp [setEntries]
  | cons e rest ih =>
    unfold setEntries
    rw [List.map_cons, List.nodup_cons] at h
    by_cases hk : e.1 = k
    · simp only [hk, if_true, List.map_cons, List.nodup_cons]
      exact ⟨hk ▸ h.1, h.2⟩
    · simp only [hk, if_false, List.map_cons, List.nodup_cons]
      refine ⟨?_, ih h.2⟩
      rw [keys_setEntries]
      rintro (h1 | h1)
      · exact hk h1
      · exact h.1 h1

/-- The assignment `m[k] = v`. -/
def set (m : GoMap V) (k : Int) (v : V) : GoMap V :=
  ⟨setEntries k v m.entries, nodup_setEntries k v m.entries m.nodup⟩

/-- The `delete(m, k)` builtin. -/
def delete (m : GoMap V) (k : Int) : GoMap V :=
  ⟨m.entries.filter (fun e => decide (e.1 ≠ k)),
    (List.filter_sublist m.entries).map Prod.fst |>.nodup m.nodup⟩

instance [DecidableEq V] : DecidableEq (GoMap V) := fun a b =>
  decidable_of_iff (a.entries = b.entries) (by
    cases a; cases b; simp)

end GoMap

/-! ## The document -/

/-- The `database.User` record. -/
structure User where
  ID : Int
  Email : String
  HashedPassword : String
  IsChirpyRed : Bool
  deriving DecidableEq, Repr

/-- Modelled from the spec: the `database.Chirp` record, whose source file is not
embedded here.  Its three fields are the ones the handlers read (`ID`, `Body`,
`AuthorID`). -/
structure Chirp where
  ID : Int
  Body : String
  AuthorID : Int
  deriving DecidableEq, Repr

/-- Modelled from the spec: the `DBStructure` document, declared next to `loadDB`
in a source file that is not embedded here: users by ID, chirps by ID, and the
revoked refresh tokens with their revocation time. -/
structure DBStructure where
  Users : GoMap User
  Chirps : GoMap Chirp
  Revocations : List (String × Int)
  deriving DecidableEq

/-- The store handle: the document in the backing file, and whether the next read
and the next write of that file go through. -/
structure DB where
  disk : DBStructure
  readOk : Bool
  writeOk : Bool
  deriving DecidableEq

/-- The document with no users, no chirps and no revocations. -/
def emptyDoc : DBStructure := ⟨GoMap.empty, GoMap.empty, []⟩

/-- A store over the empty document whose file can be read and written. -/
def emptyDB : DB := ⟨emptyDoc, true, true⟩

/-- Modelled from the spec: `loadDB`, whose source file is not embedded here.
"Load the current Document into memory": it returns the document in the file, or
an I/O error when the file cannot be read. -/
def loadDB (db : DB) : Except DBError DBStructure :=
  if db.readOk then .ok db.disk else .error .IOError

/-- Modelled from the spec: `writeDB`, whose source file is not embedded here.
"Atomically rewrite the file with the updated Document": the file holds the new
document afterwards, or is untouched when the write fails. -/
def writeDB (db : DB) (s : DBStructure) : Except DBError DB :=
  if db.writeOk then .ok { db with disk := s } else .error .IOError

/-! ## `internal/database/users.go` -/

/-- The first entry, in iteration order, whose user has the given email: the
`for _, user := range users { if user.Email == email { return &user } }` loop. -/
def rangeFindEmail (email : String) : List (Int × User) → Option User
  | [] => none
  | e :: rest => if e.2.Email = email then some e.2 else rangeFindEmail email rest

/-- The helper `userExists`; `none` is the nil pointer. -/
def userExists (email : String) (users : GoMap User) : Option User :=
  rangeFindEmail email users.entries

/-- The method `GetUserByEmail`. -/
def GetUserByEmail (db : DB) (email : String) : Except DBError User :=
  match loadDB db with
  | .error err => .error err
  | .ok dbStructure =>
    match rangeFindEmail email dbStructure.Users.entries with
    | some user => .ok user
    | none => .error .ErrNotExist

/-- The method `CreateUser`. -/
def CreateUser (db : DB) (email hashedPassword : String) : Except DBError User × DB :=
  match loadDB db with
  | .error err => (.error err, db)
  | .ok dbStructure =>
    match userExists email dbStructure.Users with
    | some _ => (.error (.Errorf ("user with Email " ++ email ++ " is already exists")), db)
    | none =>
      let id : Int := (dbStructure.Users.len : Int) + 1
      let user : User :=
        { ID := id, Email := email, HashedPassword := hashedPassword, IsChirpyRed := false }
      let dbStructure := { dbStructure with Users := dbStructure.Users.set id user }
      match writeDB db dbStructure with
      | .error err => (.error err, db)
      | .ok db' => (.ok user, db')

/-- The method `UpdateUser`. -/
def UpdateUser (db : DB) (id : Int) (email hashedPassword : String) :
    Except DBError User × DB :=
  match loadDB db with
  | .error err => (.error err, db)
  | .ok dbStructure =>
    match dbStructure.Users.get? id with
    | none => (.error .ErrNotExist, db)
    | some user =>
      let user := { user with Email := email, HashedPassword := hashedPassword }
      let dbStructure := { dbStructure with Users := dbStructure.Users.set id user }
      match writeDB db dbStructure with
      | .error err => (.error err, db)
      | .ok db' => (.ok user, db')

/-- The method `UpgradeChirpyRed`. -/
def UpgradeChirpyRed (db : DB) (id : Int) : Except DBError User × DB :=
  match loadDB db with
  | .error err => (.error err, db)
  | .ok dbStructure =>
    match dbStructure.Users.get? id with
    | none => (.error .ErrNotExist, db)
    | some user =>
      let user := { user with IsChirpyRed := true }
      let dbStructure := { dbStructure with Users := dbStructure.Users.set id user }
      match writeDB db dbStructure with
      | .error err => (.error err, db)
      | .ok db' => (.ok user, db')

/-! ## Functions of other packages -/

/-- The two token kinds `auth.TokenTypeAccess` and `auth.TokenTypeRefresh`. -/
inductive TokenType where
  | TokenTypeAccess
  | TokenTypeRefresh
  deriving DecidableEq, Repr

/-- A `time.Duration`: a number of nanoseconds. -/
abbrev Duration := Int

/-- The constant `time.Second`. -/
def Second : Duration := 1000000000

/-- The constant `time.Hour`. -/
def Hour : Duration := 60 * 60 * Second

/-- The request headers, `http.Header`. -/
abbrev Header := List (String × List String)

/-- The functions of the `auth` package the handlers call.  Their bodies (bcrypt,
JWT signing and parsing, header parsing) are not embedded, so the handlers are
parameterised by them; an `error` result is a non-nil Go error. -/
structure Auth where
  HashPassword : String → Except String String
  CheckPasswordHash : String → String → Except String Unit
  MakeJWT : Int → String → TokenType → Duration → Except String String
  GetBearerToken : Header → Except String String
  ValidateJWT : String → String → Except String String

/-- Value of a string of decimal digits. -/
def digitsValue (ds : List Char) : Nat :=
  ds.foldl (fun n c => 10 * n + (c.toNat - 48)) 0

/-- Go's `strconv.Atoi` on a 64-bit platform: an optional sign, then one or more
ASCII digits, denoting a value that fits in an `int`; `none` is a non-nil error. -/
def Atoi (s : String) : Option Int :=
  let cs := s.toList
  let signed : Bool × List Char :=
    match cs with
    | '-' :: rest => (true, rest)
    | '+' :: rest => (false, rest)
    | _ => (false, cs)
  let ds := signed.2
  if ds.isEmpty || !ds.all (fun c => decide ('0' ≤ c ∧ c ≤ '9')) then none
  else
    let n := digitsValue ds
    if signed.1 then (if n ≤ 2 ^ 63 then some (-(n : Int)) else none)
    else (if n < 2 ^ 63 then some (n : Int) else none)

/-- Go's `unicode.IsSpace`: the code points with the White_Space property. -/
def isSpace (c : Char) : Bool :=
  let n := c.toNat
  (9 ≤ n && n ≤ 13) || n = 0x20 || n = 0x85 || n = 0xA0 || n = 0x1680 ||
    (0x2000 ≤ n && n ≤ 0x200A) || n = 0x2028 || n = 0x2029 || n = 0x202F ||
    n = 0x205F || n = 0x3000

/-- The scan behind `strings.Fields`: `cur` holds the characters of the field
being read, most recent first. -/
def fieldsAux : List Char → List Char → List String
  | [], cur => if cur.isEmpty then [] else [String.mk cur.reverse]
  | c :: rest, cur =>
    if isSpace c then
      (if cur.isEmpty then fieldsAux rest [] else String.mk cur.reverse :: fieldsAux rest [])
    else fieldsAux rest (c :: cur)

/-- Go's `strings.Fields`: the maximal runs of non-space characters. -/
def Fields (s : String) : List String := fieldsAux s.toList []

/-- Go's `strings.Join`. -/
def Join (words : List String) (sep : String) : String := sep.intercalate words

/-! ## Chirps in the store -/

/-- Modelled from the spec: the store method `GetChirp`, whose source file is not
embedded here.  "`GetPost(id) -> Post`: fails with `NotFoundError` if absent." -/
def GetChirp (db : DB) (id : Int) : Except DBError Chirp :=
  match loadDB db with
  | .error err => .error err
  | .ok dbStructure =>
    match dbStructure.Chirps.get? id with
    | none => .error .ErrNotExist
    | some chirp => .ok chirp

/-- Modelled from the spec: the store method `DeleteChirp`, whose source file is not
embedded here.  "`DeletePost(id)`: fails with `NotFoundError` if absent; no
authorization check at this layer." -/
def DeleteChirp (db : DB) (id : Int) : Except DBError Unit × DB :=
  match loadDB db with
  | .error err => (.error err, db)
  | .ok dbStructure =>
    match dbStructure.Chirps.get? id with
    | none => (.error .ErrNotExist, db)
    | some _ =>
      let dbStructure := { dbStructure with Chirps := dbStructure.Chirps.delete id }
      match writeDB db dbStructure with
      | .error err => (.error err, db)
      | .ok db' => (.ok (), db')

/-- Modelled from the spec: the store method `CreateChirp`, whose source file is not
embedded here.  "`CreatePost(body, authorID) -> Post`: assigns the next
sequential Post-ID; no validation of authorID existence performed by the store."
The next ID is taken as the current count plus one, as for users. -/
def CreateChirp (db : DB) (body : String) (authorID : Int) : Except DBError Chirp × DB :=
  match loadDB db with
  | .error err => (.error err, db)
  | .ok dbStructure =>
    let id : Int := (dbStructure.Chirps.len : Int) + 1
    let chirp : Chirp := { ID := id, Body := body, AuthorID := authorID }
    let dbStructure := { dbStructure with Chirps := dbStructure.Chirps.set id chirp }
    match writeDB db dbStructure with
    | .error err => (.error err, db)
    | .ok db' => (.ok chirp, db')

/-! ## The handlers -/

/-- The `handlers.User` record of the JSON responses; `Password` is never filled
in and is omitted from the output when empty. -/
structure UserView where
  ID : Int
  Email : String
  Password : String
  IsChirpyRed : Bool
  deriving DecidableEq, Repr

/-- The `handlers.Chirp` record of the JSON responses. -/
structure ChirpView where
  ID : Int
  Body : String
  AuthorID : Int
  deriving DecidableEq, Repr

/-- The values the handlers hand to `respondWithJSON`. -/
inductive Payload where
  | errorResponse (Error : String)
  | user (User : UserView)
  | login (User : UserView) (Token RefreshToken : String)
  | chirp (c : ChirpView)
  | emptyObject
  deriving DecidableEq, Repr

/-- The tokens a response body carries (`token`, `refresh_token`). -/
def Payload.tokens : Payload → List String
  | .login _ token refreshToken => [token, refreshToken]
  | _ => []

/-- What a handler wrote: the status code and the marshalled value. -/
structure Response where
  code : Nat
  payload : Payload
  deriving DecidableEq, Repr

def StatusOK : Nat := 200
def StatusCreated : Nat := 201
def StatusBadRequest : Nat := 400
def StatusUnauthorized : Nat := 401
def StatusForbidden : Nat := 403
def StatusNotFound : Nat := 404
def StatusConflict : Nat := 409
def StatusInternalServerError : Nat := 500

/-- The helper `respondWithJSON`; marshalling a `Payload` cannot fail. -/
def respondWithJSON (code : Nat) (payload : Payload) : Response := ⟨code, payload⟩

/-- The helper `respondWithError` (the log line for 5XX codes is not modelled). -/
def respondWithError (code : Nat) (msg : String) : Response :=
  respondWithJSON code (.errorResponse msg)

/-- The `parameters` of `HandlePostUser`, `HandleUpdateUser` and `HandleLogin`. -/
structure UserParameters where
  Email : String
  Password : String
  deriving DecidableEq, Repr

/-- The handler `HandlePostUser`.  `decoded` is the outcome of
`decoder.Decode(&params)`: `none` when decoding fails. -/
def HandlePostUser (auth : Auth) (db : DB) (decoded : Option UserParameters) :
    Response × DB :=
  match decoded with
  | none => (respondWithError StatusInternalServerError "Couldn't decode parameters", db)
  | some params =>
    if params.Email = "" then (respondWithError StatusBadRequest "Email is empty", db)
    else if params.Password = "" then
      (respondWithError StatusBadRequest "Password is empty", db)
    else
      match auth.HashPassword params.Password with
      | .error _ => (respondWithError StatusInternalServerError "Couldn't hash password", db)
      | .ok hashedPassword =>
        match CreateUser db params.Email hashedPassword with
        | (.error err, db') =>
          if errorsIs err .ErrAlreadyExists then
            (respondWithError StatusConflict "User already exists", db')
          else (respondWithError StatusInternalServerError "Couldn't create user", db')
        | (.ok user, db') =>
          (respondWithJSON StatusCreated (.user
            { ID := user.ID, Email := user.Email, Password := "",
              IsChirpyRed := user.IsChirpyRed }), db')

/-- The handler `HandleLogin`; it only reads the store. -/
def HandleLogin (auth : Auth) (db : DB) (jwtSecret : String)
    (decoded : Option UserParameters) : Response :=
  match decoded with
  | none => respondWithError StatusInternalServerError "Couldn't decode parameters"
  | some params =>
    if params.Email = "" then respondWithError StatusBadRequest "Email is empty"
    else if params.Password = "" then respondWithError StatusBadRequest "Password is empty"
    else
      match GetUserByEmail db params.Email with
      | .error _ => respondWithError StatusInternalServerError "Couldn't get user"
      | .ok user =>
        match auth.CheckPasswordHash params.Password user.HashedPassword with
        | .error _ => respondWithError StatusUnauthorized "Invalid password"
        | .ok _ =>
          let accessTokenExpiration : Int := 60 * 60
          let refreshTokenExpiration : Int := 60 * 60 * 24 * 60
          match auth.MakeJWT user.ID jwtSecret .TokenTypeAccess
              (accessTokenExpiration * Second) with
          | .error _ =>
            respondWithError StatusInternalServerError "Couldn't create access token"
          | .ok accessToken =>
            match auth.MakeJWT user.ID jwtSecret .TokenTypeRefresh
                (refreshTokenExpiration * Second) with
            | .error _ =>
              respondWithError StatusInternalServerError "Couldn't create refresh token"
            | .ok refreshToken =>
              respondWithJSON StatusOK (.login
                { ID := user.ID, Email := user.Email, Password := "",
                  IsChirpyRed := user.IsChirpyRed } accessToken refreshToken)

/-- The helper `cleanBody`.  `toLower` is Go's `strings.ToLower` (Unicode case
mapping, a parameter here). -/
def cleanBody (toLower : String → String) (body : String) : String :=
  let wordsToReplace : List String := ["kerfuffle", "sharbert", "fornax"]
  let words := Fields body
  let words := words.map (fun word => if toLower word ∈ wordsToReplace then "****" else word)
  Join words " "

/-- A call a handler makes on the store. -/
inductive StoreCall where
  | GetChirp (id : Int)
  | DeleteChirp (id : Int)
  | CreateChirp (body : String) (authorID : Int)
  deriving DecidableEq, Repr

/-- The outcome of a chirp handler: the response, the store afterwards, and the
store calls it made, in order. -/
structure Outcome where
  response : Response
  db : DB
  calls : List StoreCall
  deriving DecidableEq

/-- The handler `HandlePostChirp`.  `decoded` is the outcome of decoding the
request body into `parameters`: the `Body` field, or `none` when decoding fails. -/
def HandlePostChirp (auth : Auth) (toLower : String → String) (db : DB) (jwtSecret : String)
    (header : Header) (decoded : Option String) : Outcome :=
  match auth.GetBearerToken header with
  | .error _ => ⟨respondWithError StatusUnauthorized "Couldn't find JWT", db, []⟩
  | .ok token =>
    match auth.ValidateJWT token jwtSecret with
    | .error _ => ⟨respondWithError StatusUnauthorized "Couldn't validate JWT", db, []⟩
    | .ok subject =>
      match Atoi subject with
      | none => ⟨respondWithError StatusBadRequest "Couldn't parse user ID", db, []⟩
      | some userID =>
        match decoded with
        | none =>
          ⟨respondWithError StatusInternalServerError "Couldn't decode parameters", db, []⟩
        | some body =>
          if body = "" then ⟨respondWithError StatusBadRequest "Body is empty", db, []⟩
          else if body.utf8ByteSize > 140 then
            ⟨respondWithError StatusBadRequest "Chirp is too long", db, []⟩
          else
            let cleanedBody := cleanBody toLower body
            match CreateChirp db cleanedBody userID with
            | (.error _, db') =>
              ⟨respondWithError StatusInternalServerError "Couldn't create chirp", db',
                [.CreateChirp cleanedBody userID]⟩
            | (.ok chirp, db') =>
              ⟨respondWithJSON StatusCreated (.chirp
                { ID := chirp.ID, Body := chirp.Body, AuthorID := chirp.AuthorID }), db',
                [.CreateChirp cleanedBody userID]⟩

/-- The handler `HandleDeleteChirp`.  `chirpIDString` is the `id` URL parameter. -/
def HandleDeleteChirp (auth : Auth) (db : DB) (jwtSecret : String)
    (chirpIDString : String) (header : Header) : Outcome :=
  match Atoi chirpIDString with
  | none => ⟨respondWithError StatusBadRequest "Invalid chirp ID", db, []⟩
  | some chirpID =>
    match auth.GetBearerToken header with
    | .error _ => ⟨respondWithError StatusUnauthorized "Couldn't find JWT", db, []⟩
    | .ok token =>
      match auth.ValidateJWT token jwtSecret with
      | .error _ => ⟨respondWithError StatusUnauthorized "Couldn't validate JWT", db, []⟩
      | .ok subject =>
        match Atoi subject with
        | none => ⟨respondWithError StatusBadRequest "Couldn't parse user ID", db, []⟩
        | some userID =>
          match GetChirp db chirpID with
          | .error _ =>
            ⟨respondWithError StatusNotFound "Couldn't get chirp", db, [.GetChirp chirpID]⟩
          | .ok dbChirp =>
            if dbChirp.AuthorID ≠ userID then
              ⟨respondWithError StatusForbidden "You can't delete this chirp", db,
                [.GetChirp chirpID]⟩
            else
              match DeleteChirp db chirpID with
              | (.error _, db') =>
                ⟨respondWithError StatusInternalServerError "Couldn't delete chirp", db',
                  [.GetChirp chirpID, .DeleteChirp chirpID]⟩
              | (.ok _, db') =>
                ⟨respondWithJSON StatusOK .emptyObject, db',
                  [.GetChirp chirpID, .DeleteChirp chirpID]⟩

/-! ## Facts about maps -/

namespace GoMap

variable {V : Type}

theorem lookup_setEntries_self (k : Int) (v : V) (l : List (Int × V)) :
    (setEntries k v l).lookup k = some v := by
  induction l with
  | nil => simp [setEntries, List.lookup]
  | cons e rest ih =>
    obtain ⟨a, b⟩ := e
    unfold setEntries
    by_cases h : a = k
    · simp [h, List.lookup]
    · have h' : (k == a) = false := by simpa using fun h1 => h h1.symm
      simp [h, List.lookup, h', ih]

theorem lookup_setEntries_ne (k k' : Int) (v : V) (l : List (Int × V)) (hne : k' ≠ k) :
    (setEntries k v l).lookup k' = l.lookup k' := by
  induction l with
  | nil =>
    have h' : (k' == k) = false := by simpa using hne
    simp [setEntries, List.lookup, h']
  | cons e rest ih =>
    obtain ⟨a, b⟩ := e
    unfold setEntries
    by_cases h : a = k
    · have h1 : (k' == k) = false := by simpa using hne
      have h2 : (k' == a) = false := by simpa [h] using hne
      simp [h, List.lookup, h1]
    · by_cases h2 : k' = a
      · simp [h, List.lookup, h2]
      · have h3 : (k' == a) = false := by simpa using h2
        simp [h, List.lookup, h3, ih]

theorem lookup_eq_none_iff (k : Int) (l : List (Int × V)) :
    l.lookup k = none ↔ k ∉ l.map Prod.fst := by
  induction l with
  | nil => simp [List.lookup]
  | cons e rest ih =>
    obtain ⟨a, b⟩ := e
    by_cases h : k = a
    · simp [List.lookup, h]
    · have h' : (k == a) = false := by simpa using h
      simp [List.lookup, h', ih, h]

theorem length_setEntries (k : Int) (v : V) (l : List (Int × V)) :
    (setEntries k v l).length = if k ∈ l.map Prod.fst then l.length else l.length + 1 := by
  induction l with
  | nil => simp [setEntries]
  | cons e rest ih =>
    obtain ⟨a, b⟩ := e
    unfold setEntries
    by_cases h : a = k
    · simp [h]
    · have h' : ¬ k = a := fun h1 => h h1.symm
      simp only [h, if_false, List.length_cons, ih, List.map_cons, List.mem_cons, h', false_or]
      split <;> rfl

theorem setEntries_setEntries (k : Int) (v w : V) (l : List (Int × V)) :
    setEntries k w (setEntries k v l) = setEntries k w l := by
  induction l with
  | nil => simp [setEntries]
  | cons e rest ih =>
    obtain ⟨a, b⟩ := e
    unfold setEntries
    by_cases h : a = k
    · simp [h, setEntries]
    · simp [h, setEntries, ih]

theorem mem_setEntries (k : Int) (v : V) (l : List (Int × V))
    (hnd : (l.map Prod.fst).Nodup) (e : Int × V)
    (he : e ∈ setEntries k v l) : e = (k, v) ∨ (e ∈ l ∧ e.1 ≠ k) := by
  induction l with
  | nil => simpa [setEntries] using he
  | cons x rest ih =>
    rw [List.map_cons, List.nodup_cons] at hnd
    unfold setEntries at he
    by_cases h : x.1 = k
    · simp only [h, if_true, List.mem_cons] at he
      rcases he with he | he
      · exact Or.inl he
      · refine Or.inr ⟨List.mem_cons_of_mem _ he, fun hk => hnd.1 ?_⟩
        rw [h, ← hk]
        exact List.mem_map_of_mem Prod.fst he
    · simp only [h, if_false, List.mem_cons] at he
      rcases he with he | he
      · exact Or.inr ⟨by simp [he], by rw [he]; exact h⟩
      · rcases ih hnd.2 he with h1 | ⟨h1, h2⟩
        · exact Or.inl h1
        · exact Or.inr ⟨List.mem_cons_of_mem _ h1, h2⟩

theorem mem_of_lookup (k : Int) (v : V) (l : List (Int × V)) (h : l.lookup k = some v) :
    (k, v) ∈ l := by
  induction l with
  | nil => simp [List.lookup] at h
  | cons e rest ih =>
    obtain ⟨a, b⟩ := e
    by_cases hk : k = a
    · simp [List.lookup, hk] at h
      simp [hk, h]
    · have h' : (k == a) = false := by simpa using hk
      simp only [List.lookup, h'] at h
      exact List.mem_cons_of_mem _ (ih h)

theorem lookup_of_mem (k : Int) (v : V) (l : List (Int × V))
    (hnd : (l.map Prod.fst).Nodup) (h : (k, v) ∈ l) : l.lookup k = some v := by
  induction l with
  | nil => simp at h
  | cons e rest ih =>
    obtain ⟨a, b⟩ := e
    rw [List.map_cons, List.nodup_cons] at hnd
    rcases List.mem_cons.mp h with h1 | h1
    · cases h1
      simp [List.lookup]
    · have hk : k ≠ a := by
        intro hk
        subst hk
        exact hnd.1 (List.mem_map.mpr ⟨(k, v), h1, rfl⟩)
      have h' : (k == a) = false := by simpa using hk
      simp only [List.lookup, h']
      exact ih hnd.2 h1

/-- A user is stored under a key exactly when the pair is an entry of the map. -/
theorem get?_eq_some_iff (m : GoMap V) (k : Int) (v : V) :
    m.get? k = some v ↔ (k, v) ∈ m.entries :=
  ⟨mem_of_lookup k v m.entries, lookup_of_mem k v m.entries m.nodup⟩

theorem get?_set_self (m : GoMap V) (k : Int) (v : V) : (m.set k v).get? k = some v :=
  lookup_setEntries_self k v m.entries

theorem get?_set_ne (m : GoMap V) (k k' : Int) (v : V) (hne : k' ≠ k) :
    (m.set k v).get? k' = m.get? k' :=
  lookup_setEntries_ne k k' v m.entries hne

theorem set_set (m : GoMap V) (k : Int) (v w : V) : (m.set k v).set k w = m.set k w := by
  simp [set, setEntries_setEntries]

theorem len_set_of_none (m : GoMap V) (k : Int) (v : V) (h : m.get? k = none) :
    (m.set k v).len = m.len + 1 := by
  have h' : k ∉ m.entries.map Prod.fst := (lookup_eq_none_iff k m.entries).mp h
  simp only [len, set, length_setEntries, if_neg h']

theorem len_set_of_some (m : GoMap V) (k : Int) (v w : V) (h : m.get? k = some w) :
    (m.set k v).len = m.len := by
  have h' : k ∈ m.entries.map Prod.fst := by
    by_contra hc
    have := (lookup_eq_none_iff k m.entries).mpr hc
    simp [get?] at h
    rw [this] at h
    cases h
  simp only [len, set, length_setEntries, if_pos h']

end GoMap

instance : DecidableEq (Except DBError User) := fun a b =>
  match a, b with
  | .ok x, .ok y => decidable_of_iff (x = y) (by simp)
  | .error x, .error y => decidable_of_iff (x = y) (by simp)
  | .ok _, .error _ => isFalse (by simp)
  | .error _, .ok _ => isFalse (by simp)

/-! ## Sample stores -/

/-- The store after registering `a@example.com` on the empty store. -/
def storeA : DB := (CreateUser emptyDB "a@example.com" "h1").2

/-- The store after registering `a@example.com` and then `b@example.com`. -/
def storeAB : DB := (CreateUser storeA "b@example.com" "h2").2

/-- A stand-in for the `auth` package, used to run the handlers on concrete
requests: the hash of `p` is `hashed:p`, the bearer token is the value of the
`Authorization` header, and a token validates to itself as subject. -/
def sampleAuth : Auth where
  HashPassword := fun p => .ok ("hashed:" ++ p)
  CheckPasswordHash := fun p h => if h = "hashed:" ++ p then .ok () else .error "mismatch"
  MakeJWT := fun _ _ t _ =>
    match t with
    | .TokenTypeAccess => .ok "access-token"
    | .TokenTypeRefresh => .ok "refresh-token"
  GetBearerToken := fun header =>
    match header with
    | [("Authorization", [v])] => .ok v
    | _ => .error "malformed header"
  ValidateJWT := fun token _ => if token = "" then .error "invalid token" else .ok token

/-- The store after `POST /api/users` for `a@example.com` / `secret123` on the
empty store. -/
def storeLogin : DB :=
  (HandlePostUser sampleAuth emptyDB (some ⟨"a@example.com", "secret123"⟩)).2

/-- The store after user 1 of `storeA` posted the chirp `hello`. -/
def storeChirp : DB := (CreateChirp storeA "hello" 1).2

/-- No two distinct user records of the document have the same email. -/
def EmailsUnique (d : DBStructure) : Prop :=
  ∀ k k' u u', d.Users.get? k = some u → d.Users.get? k' = some u' →
    u.Email = u'.Email → k = k'

/-- The documents reachable from the empty document by calls of `CreateUser`,
`UpdateUser` and `UpgradeChirpyRed`, each of which may succeed or fail (the file
may or may not be readable and writable at each call), together with the IDs that
the successful `CreateUser` calls returned, most recent first. -/
inductive Reach : DBStructure → List Int → Prop where
  | empty : Reach emptyDoc []
  | create (d : DBStructure) (ids : List Int) (r w : Bool) (email hashedPassword : String) :
      Reach d ids →
      Reach (CreateUser ⟨d, r, w⟩ email hashedPassword).2.disk
        (match (CreateUser ⟨d, r, w⟩ email hashedPassword).1 with
          | .ok user => user.ID :: ids
          | .error _ => ids)
  | update (d : DBStructure) (ids : List Int) (r w : Bool) (id : Int)
      (email hashedPassword : String) :
      Reach d ids → Reach (UpdateUser ⟨d, r, w⟩ id email hashedPassword).2.disk ids
  | upgrade (d : DBStructure) (ids : List Int) (r w : Bool) (id : Int) :
      Reach d ids → Reach (UpgradeChirpyRed ⟨d, r, w⟩ id).2.disk ids

/-- The store with its users replaced. -/
def DB.withUsers (db : DB) (users : GoMap User) : DB :=
  { db with disk := { db.disk with Users := users } }

/-- The keys of the user map are exactly `1 .. len`, every user is stored under its
own ID, and every ID handed out so far is one of those keys. -/
def Dense (d : DBStructure) (ids : List Int) : Prop :=
  (∀ k, (d.Users.get? k).isSome = true ↔ 1 ≤ k ∧ k ≤ (d.Users.len : Int)) ∧
    (∀ k u, d.Users.get? k = some u → u.ID = k) ∧
    (∀ i ∈ ids, 1 ≤ i ∧ i ≤ (d.Users.len : Int))

/-! ## Two concurrent `CreateUser` calls -/

/-- The part of `CreateUser` up to its only read of the file (lines 44-59):
`loadDB`, the `userExists` check, and the new user put into the loaded copy of the
document.  The copy is private to the call until `writeDB`. -/
def CreateUserLoad (db : DB) (email hashedPassword : String) :
    Except DBError (User × DBStructure) :=
  match loadDB db with
  | .error err => .error err
  | .ok dbStructure =>
    match userExists email dbStructure.Users with
    | some _ => .error (.Errorf ("user with Email " ++ email ++ " is already exists"))
    | none =>
      let id : Int := (dbStructure.Users.len : Int) + 1
      let user : User :=
        { ID := id, Email := email, HashedPassword := hashedPassword, IsChirpyRed := false }
      .ok (user, { dbStructure with Users := dbStructure.Users.set id user })

/-- The rest of `CreateUser` (lines 61-66): `writeDB` of the private copy, then the
return. -/
def CreateUserWrite (db : DB) (pending : User × DBStructure) : Except DBError User × DB :=
  match writeDB db pending.2 with
  | .error err => (.error err, db)
  | .ok db' => (.ok pending.1, db')

/-- Where one `CreateUser` call stands: not started, between its `loadDB` and its
`writeDB` (holding the user it built and its copy of the document), or returned. -/
inductive Call where
  | ready (email hashedPassword : String)
  | loaded (pending : User × DBStructure)
  | done (result : Except DBError User)
  deriving DecidableEq

/-- One step of a call on the shared store: the next of its two file accesses.
`CreateUser` takes no lock between them, so another call may step in between. -/
def Call.step (db : DB) : Call → Call × DB
  | .ready email hashedPassword =>
    match CreateUserLoad db email hashedPassword with
    | .error err => (.done (.error err), db)
    | .ok pending => (.loaded pending, db)
  | .loaded pending => (.done (CreateUserWrite db pending).1, (CreateUserWrite db pending).2)
  | .done result => (.done result, db)

/-- Two calls, `a` and `b`, running on one store. -/
structure Sys where
  a : Call
  b : Call
  db : DB
  deriving DecidableEq

/-- Which of the two calls takes the next step. -/
inductive Who where
  | A
  | B
  deriving DecidableEq, Repr

/-- The system after the chosen call made its next step. -/
def Sys.step (s : Sys) : Who → Sys
  | .A => ⟨(s.a.step s.db).1, s.b, (s.a.step s.db).2⟩
  | .B => ⟨s.a, (s.b.step s.db).1, (s.b.step s.db).2⟩

/-- The system after the steps of a schedule, taken from left to right. -/
def run (schedule : List Who) (s : Sys) : Sys := schedule.foldl Sys.step s

/-- Both calls returned a user, the two IDs differ, and the store holds both
records, each under its ID and with the email its call was given. -/
def BothCreated (s : Sys) (emailA emailB : String) : Prop :=
  ∃ userA userB, s.a = .done (.ok userA) ∧ s.b = .done (.ok userB) ∧
    userA.ID ≠ userB.ID ∧ userA.Email = emailA ∧ userB.Email = emailB ∧
    s.db.disk.Users.get? userA.ID = some userA ∧
    s.db.disk.Users.get? userB.ID = some userB

/-! ## Facts about the email scan -/

theorem rangeFindEmail_eq_none_iff (email : String) (l : List (Int × User)) :
    rangeFindEmail email l = none ↔ ∀ e ∈ l, e.2.Email ≠ email := by
  induction l with
  | nil => simp [rangeFindEmail]
  | cons e rest ih =>
    unfold rangeFindEmail
    by_cases h : e.2.Email = email
    · simp [h]
    · simp [h, ih]

theorem rangeFindEmail_some (email : String) (l : List (Int × User)) (u : User)
    (h : rangeFindEmail email l = some u) : ∃ k, (k, u) ∈ l ∧ u.Email = email := by
  induction l with
  | nil => simp [rangeFindEmail] at h
  | cons e rest ih =>
    unfold rangeFindEmail at h
    by_cases he : e.2.Email = email
    · simp only [he, if_true, Option.some.injEq] at h
      exact ⟨e.1, by rw [← h]; simp, by rw [← h]; exact he⟩
    · simp only [he, if_false] at h
      obtain ⟨k, hk, hu⟩ := ih h
      exact ⟨k, List.mem_cons_of_mem _ hk, hu⟩

/-- The scan finds a user as soon as some entry carries the email. -/
theorem rangeFindEmail_isSome (email : String) (l : List (Int × User)) (e : Int × User)
    (he : e ∈ l) (hm : e.2.Email = email) : ∃ u, rangeFindEmail email l = some u := by
  cases h : rangeFindEmail email l with
  | some u => exact ⟨u, rfl⟩
  | none => exact absurd hm ((rangeFindEmail_eq_none_iff email l).mp h e he)

/-- With an email already stored, `CreateUser` returns the `fmt.Errorf` error and
leaves the store alone. -/
theorem CreateUser_existing_email (db : DB) (email hashedPassword : String) (k : Int)
    (u : User) (hr : db.readOk = true) (hs : db.disk.Users.get? k = some u)
    (he : u.Email = email) :
    CreateUser db email hashedPassword
      = (.error (.Errorf ("user with Email " ++ email ++ " is already exists")), db) := by
  obtain ⟨v, hv⟩ := rangeFindEmail_isSome email db.disk.Users.entries (k, u)
    ((GoMap.get?_eq_some_iff _ k u).mp hs) he
  simp [CreateUser, loadDB, hr, userExists, hv]

/-- The scan returns `u` when some entry carries the email and every entry that
carries it holds `u`. -/
theorem rangeFindEmail_unique (email : String) (l : List (Int × User)) (u : User)
    (hex : ∃ e ∈ l, e.2.Email = email) (hall : ∀ e ∈ l, e.2.Email = email → e.2 = u) :
    rangeFindEmail email l = some u := by
  obtain ⟨e, he, hm⟩ := hex
  obtain ⟨v, hv⟩ := rangeFindEmail_isSome email l e he hm
  obtain ⟨k, hk, hke⟩ := rangeFindEmail_some email l v hv
  rw [hv, ← hall (k, v) hk hke]

/-! ## The shape of each store call's result -/

theorem CreateUser_ok (db : DB) (email hashedPassword : String) (user : User)
    (h : (CreateUser db email hashedPassword).1 = .ok user) :
    db.readOk = true ∧ db.writeOk = true ∧ userExists email db.disk.Users = none ∧
      user = ⟨(db.disk.Users.len : Int) + 1, email, hashedPassword, false⟩ ∧
      (CreateUser db email hashedPassword).2
        = db.withUsers (db.disk.Users.set ((db.disk.Users.len : Int) + 1) user) := by
  unfold CreateUser loadDB writeDB at *
  cases hr : db.readOk <;> simp only [hr] at h ⊢
  · simp at h
  · cases hu : userExists email db.disk.Users <;> simp only [if_true, hu] at h ⊢
    · cases hw : db.writeOk <;> simp only [hw] at h ⊢
      · simp at h
      · simp only [if_true, Except.ok.injEq] at h
        subst h
        simp [DB.withUsers, hr, hw]
    · simp at h

theorem CreateUser_error (db : DB) (email hashedPassword : String) (e : DBError)
    (h : (CreateUser db email hashedPassword).1 = .error e) :
    (CreateUser db email hashedPassword).2 = db := by
  unfold CreateUser loadDB writeDB at *
  cases hr : db.readOk <;> simp only [hr] at h ⊢
  · simp
  · cases hu : userExists email db.disk.Users <;> simp only [if_true, hu] at h ⊢
    cases hw : db.writeOk <;> simp only [hw] at h ⊢
    · simp
    · simp at h

theorem UpdateUser_ok (db : DB) (id : Int) (email hashedPassword : String) (user : User)
    (h : (UpdateUser db id email hashedPassword).1 = .ok user) :
    ∃ old, db.disk.Users.get? id = some old ∧
      user = ⟨old.ID, email, hashedPassword, old.IsChirpyRed⟩ ∧
      (UpdateUser db id email hashedPassword).2 = db.withUsers (db.disk.Users.set id user) := by
  unfold UpdateUser loadDB writeDB at *
  cases hr : db.readOk <;> simp only [hr] at h ⊢
  · simp at h
  · cases hu : db.disk.Users.get? id <;> simp only [if_true, hu] at h ⊢
    · simp at h
    · cases hw : db.writeOk <;> simp only [hw] at h ⊢
      · simp at h
      · simp only [if_true, Except.ok.injEq] at h
        subst h
        simp [DB.withUsers, hr, hw]

theorem UpdateUser_error (db : DB) (id : Int) (email hashedPassword : String) (e : DBError)
    (h : (UpdateUser db id email hashedPassword).1 = .error e) :
    (UpdateUser db id email hashedPassword).2 = db := by
  unfold UpdateUser loadDB writeDB at *
  cases hr : db.readOk <;> simp only [hr] at h ⊢
  · simp
  · cases hu : db.disk.Users.get? id <;> simp only [if_true, hu] at h ⊢
    cases hw : db.writeOk <;> simp only [hw] at h ⊢
    · simp
    · simp at h

theorem UpgradeChirpyRed_ok (db : DB) (id : Int) (user : User)
    (h : (UpgradeChirpyRed db id).1 = .ok user) :
    ∃ old, db.disk.Users.get? id = some old ∧
      user = ⟨old.ID, old.Email, old.HashedPassword, true⟩ ∧
      (UpgradeChirpyRed db id).2 = db.withUsers (db.disk.Users.set id user) := by
  unfold UpgradeChirpyRed loadDB writeDB at *
  cases hr : db.readOk <;> simp only [hr] at h ⊢
  · simp at h
  · cases hu : db.disk.Users.get? id <;> simp only [if_true, hu] at h ⊢
    · simp at h
    · cases hw : db.writeOk <;> simp only [hw] at h ⊢
      · simp at h
      · simp only [if_true, Except.ok.injEq] at h
        subst h
        simp [DB.withUsers, hr, hw]

theorem UpgradeChirpyRed_error (db : DB) (id : Int) (e : DBError)
    (h : (UpgradeChirpyRed db id).1 = .error e) : (UpgradeChirpyRed db id).2 = db := by
  unfold UpgradeChirpyRed loadDB writeDB at *
  cases hr : db.readOk <;> simp only [hr] at h ⊢
  · simp
  · cases hu : db.disk.Users.get? id <;> simp only [if_true, hu] at h ⊢
    cases hw : db.writeOk <;> simp only [hw] at h ⊢
    · simp
    · simp at h

/-- With a readable and writable file and an email no stored user has,
`CreateUser` succeeds with ID `len + 1` and stores the user under that key. -/
theorem CreateUser_fresh (db : DB) (email hashedPassword : String)
    (hr : db.readOk = true) (hw : db.writeOk = true)
    (hfresh : ∀ k u, db.disk.Users.get? k = some u → u.Email ≠ email) :
    CreateUser db email hashedPassword
      = (.ok ⟨(db.disk.Users.len : Int) + 1, email, hashedPassword, false⟩,
          db.withUsers (db.disk.Users.set ((db.disk.Users.len : Int) + 1)
            ⟨(db.disk.Users.len : Int) + 1, email, hashedPassword, false⟩)) := by
  have hnone : userExists email db.disk.Users = none := by
    unfold userExists
    rw [rangeFindEmail_eq_none_iff]
    intro e he
    exact hfresh e.1 e.2 ((GoMap.get?_eq_some_iff _ _ _).mpr he)
  simp [CreateUser, loadDB, writeDB, hr, hw, hnone, DB.withUsers]

/-- `CreateUser` is its load part followed by its write part. -/
theorem CreateUser_eq_load_then_write (db : DB) (email hashedPassword : String) :
    CreateUser db email hashedPassword
      = match CreateUserLoad db email hashedPassword with
        | .error err => (.error err, db)
        | .ok pending => CreateUserWrite db pending := by
  unfold CreateUser CreateUserLoad CreateUserWrite
  cases loadDB db with
  | error err => rfl
  | ok dbStructure =>
    simp only
    cases userExists email dbStructure.Users with
    | some u => rfl
    | none => rfl

/-- Two consecutive steps of call `a` from its start are one whole `CreateUser`. -/
theorem Sys.step_step_A (b : Call) (db : DB) (email hashedPassword : String) :
    (Sys.step (Sys.step ⟨.ready email hashedPassword, b, db⟩ .A) .A)
      = ⟨.done (CreateUser db email hashedPassword).1, b,
          (CreateUser db email hashedPassword).2⟩ := by
  rw [CreateUser_eq_load_then_write]
  simp only [Sys.step, Call.step]
  cases CreateUserLoad db email hashedPassword with
  | error err => rfl
  | ok pending => rfl

/-- Two consecutive steps of call `b` from its start are one whole `CreateUser`. -/
theorem Sys.step_step_B (a : Call) (db : DB) (email hashedPassword : String) :
    (Sys.step (Sys.step ⟨a, .ready email hashedPassword, db⟩ .B) .B)
      = ⟨a, .done (CreateUser db email hashedPassword).1,
          (CreateUser db email hashedPassword).2⟩ := by
  rw [CreateUser_eq_load_then_write]
  simp only [Sys.step, Call.step]
  cases CreateUserLoad db email hashedPassword with
  | error err => rfl
  | ok pending => rfl

/-! ## What holds of every reachable document -/

theorem Dense_empty : Dense emptyDoc [] := by
  refine ⟨fun k => ?_, fun k u h => ?_, fun i hi => ?_⟩
  · simp [emptyDoc, GoMap.empty, GoMap.get?, GoMap.len, List.lookup]
    omega
  · simp [emptyDoc, GoMap.empty, GoMap.get?, List.lookup] at h
  · simp at hi

/-- Overwriting the value of a stored key with a user of the same ID keeps the
document dense. -/
theorem Dense_overwrite (db : DB) (ids : List Int) (id : Int) (old user : User)
    (hd : Dense db.disk ids) (ho : db.disk.Users.get? id = some old)
    (hid : user.ID = old.ID) :
    Dense (db.withUsers (db.disk.Users.set id user)).disk ids := by
  obtain ⟨h1, h2, h3⟩ := hd
  have hlen : (db.disk.Users.set id user).len = db.disk.Users.len :=
    GoMap.len_set_of_some _ _ _ _ ho
  refine ⟨fun k => ?_, fun k u h => ?_, fun i hi => ?_⟩
  · show ((db.disk.Users.set id user).get? k).isSome = true
      ↔ 1 ≤ k ∧ k ≤ ((db.disk.Users.set id user).len : Int)
    rw [hlen]
    by_cases hk : k = id
    · rw [hk, GoMap.get?_set_self, ← h1 id, ho]
      simp
    · rw [GoMap.get?_set_ne _ _ _ _ hk]
      exact h1 k
  · change (db.disk.Users.set id user).get? k = some u at h
    by_cases hk : k = id
    · rw [hk, GoMap.get?_set_self] at h
      cases h
      rw [hid, hk]
      exact h2 id old ho
    · rw [GoMap.get?_set_ne _ _ _ _ hk] at h
      exact h2 k u h
  · show 1 ≤ i ∧ i ≤ ((db.disk.Users.set id user).len : Int)
    rw [hlen]
    exact h3 i hi

/-- Every reachable document is dense. -/
theorem Reach.dense {d : DBStructure} {ids : List Int} (h : Reach d ids) : Dense d ids := by
  induction h with
  | empty => exact Dense_empty
  | create d ids r w email hashedPassword _ ih =>
    cases hres : (CreateUser ⟨d, r, w⟩ email hashedPassword).1 with
    | error e =>
      rw [CreateUser_error _ _ _ e hres]
      exact ih
    | ok user =>
      obtain ⟨-, -, -, hu, h2⟩ := CreateUser_ok _ _ _ user hres
      rw [h2]
      obtain ⟨h1, h2', h3⟩ := ih
      have hnone : d.Users.get? ((d.Users.len : Int) + 1) = none := by
        cases hg : d.Users.get? ((d.Users.len : Int) + 1) with
        | none => rfl
        | some v =>
          have := (h1 ((d.Users.len : Int) + 1)).mp (by rw [hg]; rfl)
          omega
      have hlen : (d.Users.set ((d.Users.len : Int) + 1) user).len = d.Users.len + 1 :=
        GoMap.len_set_of_none _ _ _ hnone
      refine ⟨fun k => ?_, fun k u h => ?_, fun i hi => ?_⟩
      · show ((d.Users.set ((d.Users.len : Int) + 1) user).get? k).isSome = true
          ↔ 1 ≤ k ∧ k ≤ ((d.Users.set ((d.Users.len : Int) + 1) user).len : Int)
        rw [hlen]
        by_cases hk : k = (d.Users.len : Int) + 1
        · rw [hk, GoMap.get?_set_self]
          simp
        · rw [GoMap.get?_set_ne _ _ _ _ hk, h1 k]
          push_cast
          omega
      · change (d.Users.set ((d.Users.len : Int) + 1) user).get? k = some u at h
        by_cases hk : k = (d.Users.len : Int) + 1
        · rw [hk, GoMap.get?_set_self] at h
          cases h
          rw [hk, hu]
        · rw [GoMap.get?_set_ne _ _ _ _ hk] at h
          exact h2' k u h
      · show 1 ≤ i ∧ i ≤ ((d.Users.set ((d.Users.len : Int) + 1) user).len : Int)
        rw [hlen]
        push_cast
        rcases List.mem_cons.mp hi with hi | hi
        · rw [hi, hu]
          show 1 ≤ (d.Users.len : Int) + 1 ∧ (d.Users.len : Int) + 1 ≤ (d.Users.len : Int) + 1
          omega
        · have := h3 i hi
          omega
  | update d ids r w id email hashedPassword _ ih =>
    cases hres : (UpdateUser ⟨d, r, w⟩ id email hashedPassword).1 with
    | error e =>
      rw [UpdateUser_error _ _ _ _ e hres]
      exact ih
    | ok user =>
      obtain ⟨old, ho, hu, h2⟩ := UpdateUser_ok _ _ _ _ user hres
      rw [h2]
      exact Dense_overwrite ⟨d, r, w⟩ ids id old user ih ho (by rw [hu])
  | upgrade d ids r w id _ ih =>
    cases hres : (UpgradeChirpyRed ⟨d, r, w⟩ id).1 with
    | error e =>
      rw [UpgradeChirpyRed_error _ _ e hres]
      exact ih
    | ok user =>
      obtain ⟨old, ho, hu, h2⟩ := UpgradeChirpyRed_ok _ _ user hres
      rw [h2]
      exact Dense_overwrite ⟨d, r, w⟩ ids id old user ih ho (by rw [hu])

/-- Two `CreateUser` calls with different unused emails, one after the other on a
dense document: both succeed, with different IDs, and both records are stored. -/
theorem CreateUser_twice (d : DBStructure) (ids : List Int) (hd : Dense d ids)
    (e1 h1 e2 h2 : String) (hne : e1 ≠ e2)
    (hf1 : ∀ k u, d.Users.get? k = some u → u.Email ≠ e1)
    (hf2 : ∀ k u, d.Users.get? k = some u → u.Email ≠ e2) :
    ∃ u1 u2 db1 db2, CreateUser ⟨d, true, true⟩ e1 h1 = (.ok u1, db1) ∧
      CreateUser db1 e2 h2 = (.ok u2, db2) ∧ u1.ID ≠ u2.ID ∧ u1.Email = e1 ∧
      u2.Email = e2 ∧ db2.disk.Users.get? u1.ID = some u1 ∧
      db2.disk.Users.get? u2.ID = some u2 := by
  obtain ⟨hkeys, -, -⟩ := hd
  have hnone : d.Users.get? ((d.Users.len : Int) + 1) = none := by
    cases hg : d.Users.get? ((d.Users.len : Int) + 1) with
    | none => rfl
    | some v =>
      have := (hkeys ((d.Users.len : Int) + 1)).mp (by rw [hg]; rfl)
      omega
  have hc1 := CreateUser_fresh ⟨d, true, true⟩ e1 h1 rfl rfl hf1
  have hlen : (d.Users.set ((d.Users.len : Int) + 1)
      ⟨(d.Users.len : Int) + 1, e1, h1, false⟩).len = d.Users.len + 1 :=
    GoMap.len_set_of_none _ _ _ hnone
  have hf2' : ∀ k u,
      ((⟨d, true, true⟩ : DB).withUsers (d.Users.set ((d.Users.len : Int) + 1)
        ⟨(d.Users.len : Int) + 1, e1, h1, false⟩)).disk.Users.get? k = some u →
      u.Email ≠ e2 := by
    intro k u hk
    change (d.Users.set _ _).get? k = some u at hk
    by_cases hk1 : k = (d.Users.len : Int) + 1
    · rw [hk1, GoMap.get?_set_self] at hk
      cases hk
      exact hne
    · rw [GoMap.get?_set_ne _ _ _ _ hk1] at hk
      exact hf2 k u hk
  have hc2 := CreateUser_fresh _ e2 h2 rfl rfl hf2'
  refine ⟨_, _, _, _, hc1, hc2, ?_, rfl, rfl, ?_, ?_⟩
  · show (d.Users.len : Int) + 1 ≠ ((d.Users.set _ _).len : Int) + 1
    rw [hlen]
    push_cast
    omega
  · show ((d.Users.set _ _).set (((d.Users.set _ _).len : Int) + 1) _).get?
      ((d.Users.len : Int) + 1) = _
    rw [GoMap.get?_set_ne _ _ _ _ (by rw [hlen]; push_cast; omega)]
    exact GoMap.get?_set_self _ _ _
  · exact GoMap.get?_set_self _ _ _

/-- On the empty store every schedule in which the two calls overlap (both loads
come before both writes) loses a write: the non-overlapping schedules are the only
ones that keep both records. -/
theorem CreateUser_overlap_loses_write (schedule : List Who)
    (h : schedule ∈ [[Who.A, .B, .A, .B], [.A, .B, .B, .A], [.B, .A, .A, .B],
      [.B, .A, .B, .A]]) :
    ¬ BothCreated
        (run schedule ⟨.ready "a@example.com" "h1", .ready "b@example.com" "h2", emptyDB⟩)
        "a@example.com" "b@example.com" := by
  have hab : ∀ s : Sys, s.a = .done (.ok ⟨1, "a@example.com", "h1", false⟩) →
      s.b = .done (.ok ⟨1, "b@example.com", "h2", false⟩) →
      ¬ BothCreated s "a@example.com" "b@example.com" := by
    rintro s ha hb ⟨userA, userB, ha', hb', hne, -⟩
    rw [ha] at ha'
    rw [hb] at hb'
    simp only [Call.done.injEq, Except.ok.injEq] at ha' hb'
    rw [← ha', ← hb'] at hne
    exact hne rfl
  simp only [List.mem_cons, List.mem_singleton, List.not_mem_nil, or_false] at h
  rcases h with h | h | h | h <;> subst h <;> exact hab _ (by decide) (by decide)

/-! ## Email uniqueness along the calls that keep it -/

/-- The check in `CreateUser` keeps emails unique. -/
theorem EmailsUnique_CreateUser (db : DB) (email hashedPassword : String)
    (h : EmailsUnique db.disk) : EmailsUnique (CreateUser db email hashedPassword).2.disk := by
  cases hres : (CreateUser db email hashedPassword).1 with
  | error e =>
    rw [CreateUser_error _ _ _ e hres]
    exact h
  | ok user =>
    obtain ⟨-, -, hnone, hu, h2⟩ := CreateUser_ok _ _ _ user hres
    rw [h2]
    have hfresh : ∀ k u, db.disk.Users.get? k = some u → u.Email ≠ email := by
      intro k u hk
      exact (rangeFindEmail_eq_none_iff _ _).mp hnone (k, u)
        ((GoMap.get?_eq_some_iff _ _ _).mp hk)
    have hue : user.Email = email := by rw [hu]
    intro k k' u u' hk hk' he
    change (db.disk.Users.set _ user).get? k = some u at hk
    change (db.disk.Users.set _ user).get? k' = some u' at hk'
    by_cases h1 : k = (db.disk.Users.len : Int) + 1 <;>
      by_cases h2 : k' = (db.disk.Users.len : Int) + 1
    · rw [h1, h2]
    · rw [h1, GoMap.get?_set_self] at hk
      rw [GoMap.get?_set_ne _ _ _ _ h2] at hk'
      cases hk
      exact absurd (he.symm.trans hue) (hfresh k' u' hk')
    · rw [h2, GoMap.get?_set_self] at hk'
      rw [GoMap.get?_set_ne _ _ _ _ h1] at hk
      cases hk'
      exact absurd (he.trans hue) (hfresh k u hk)
    · rw [GoMap.get?_set_ne _ _ _ _ h1] at hk
      rw [GoMap.get?_set_ne _ _ _ _ h2] at hk'
      exact h k k' u u' hk hk' he

/-- `UpgradeChirpyRed` touches no email, so it keeps emails unique. -/
theorem EmailsUnique_UpgradeChirpyRed (db : DB) (id : Int) (h : EmailsUnique db.disk) :
    EmailsUnique (UpgradeChirpyRed db id).2.disk := by
  cases hres : (UpgradeChirpyRed db id).1 with
  | error e =>
    rw [UpgradeChirpyRed_error _ _ e hres]
    exact h
  | ok user =>
    obtain ⟨old, ho, hu, h2⟩ := UpgradeChirpyRed_ok _ _ user hres
    rw [h2]
    have hold : ∀ k u, (db.disk.Users.set id user).get? k = some u →
        ∃ v, db.disk.Users.get? k = some v ∧ v.Email = u.Email := by
      intro k u hk
      by_cases h1 : k = id
      · rw [h1, GoMap.get?_set_self] at hk
        cases hk
        exact ⟨old, h1 ▸ ho, by rw [hu]⟩
      · rw [GoMap.get?_set_ne _ _ _ _ h1] at hk
        exact ⟨u, hk, rfl⟩
    intro k k' u u' hk hk' he
    obtain ⟨v, hv, hve⟩ := hold k u hk
    obtain ⟨v', hv', hve'⟩ := hold k' u' hk'
    exact h k k' v v' hv hv' (by rw [hve, hve', he])

/-! ## Facts about `cleanBody` -/

theorem String_mk_ne_empty (cs : List Char) (h : cs ≠ []) : String.mk cs ≠ "" := by
  intro hc
  have : (String.mk cs).data = ("" : String).data := by rw [hc]
  exact h this

theorem fieldsAux_ne_empty (l cur : List Char) : ∀ w ∈ fieldsAux l cur, w ≠ "" := by
  induction l generalizing cur with
  | nil =>
    intro w hw
    unfold fieldsAux at hw
    cases cur with
    | nil => simp at hw
    | cons c cs =>
      simp only [List.isEmpty_cons, Bool.false_eq_true, if_false, List.mem_singleton] at hw
      rw [hw]
      exact String_mk_ne_empty _ (by simp)
  | cons c rest ih =>
    intro w hw
    unfold fieldsAux at hw
    by_cases hs : isSpace c = true
    · simp only [hs, if_true] at hw
      cases cur with
      | nil =>
        simp only [List.isEmpty_nil, if_true] at hw
        exact ih [] w hw
      | cons d ds =>
        simp only [List.isEmpty_cons, Bool.false_eq_true, if_false, List.mem_cons] at hw
        rcases hw with hw | hw
        · rw [hw]
          exact String_mk_ne_empty _ (by simp)
        · exact ih [] w hw
    · simp only [hs, if_false] at hw
      exact ih (c :: cur) w hw

theorem fieldsAux_ne_nil (l cur : List Char)
    (h : cur ≠ [] ∨ ∃ c ∈ l, isSpace c = false) : fieldsAux l cur ≠ [] := by
  induction l generalizing cur with
  | nil =>
    rcases h with h | ⟨c, hc, -⟩
    · unfold fieldsAux
      cases cur with
      | nil => exact absurd rfl h
      | cons d ds => simp
    · simp at hc
  | cons c rest ih =>
    unfold fieldsAux
    by_cases hs : isSpace c = true
    · simp only [hs, if_true]
      cases cur with
      | nil =>
        simp only [List.isEmpty_nil, if_true]
        apply ih
        rcases h with h | ⟨x, hx, hxs⟩
        · exact absurd rfl h
        · rcases List.mem_cons.mp hx with hx | hx
          · rw [hx, hs] at hxs
            cases hxs
          · exact Or.inr ⟨x, hx, hxs⟩
      | cons d ds => simp
    · simp only [hs, if_false]
      exact ih (c :: cur) (Or.inl (by simp))

theorem intercalate_go_length (sep : String) (l : List String) (acc : String) :
    acc.length ≤ (String.intercalate.go acc sep l).length := by
  induction l generalizing acc with
  | nil => simp [String.intercalate.go]
  | cons a rest ih =>
    unfold String.intercalate.go
    refine le_trans ?_ (ih _)
    simp only [String.length_append]
    omega

/-- A body with at least one non-space character is cleaned to a non-empty text:
the gap of `HandlePostChirp` is confined to bodies made of white space only. -/
theorem cleanBody_ne_empty_of_nonspace (toLower : String → String) (body : String)
    (h : ∃ c ∈ body.toList, isSpace c = false) : cleanBody toLower body ≠ "" := by
  unfold cleanBody Join Fields
  have hne := fieldsAux_ne_nil body.toList [] (Or.inr h)
  have hall := fieldsAux_ne_empty body.toList []
  cases hf : fieldsAux body.toList [] with
  | nil => exact absurd hf hne
  | cons w ws =>
    rw [hf] at hall
    have hw : w ≠ "" := hall w (by simp)
    simp only [List.map_cons, String.intercalate]
    have hlen : 0 < (if toLower w ∈ ["kerfuffle", "sharbert", "fornax"] then "****" else w).length := by
      split
      · decide
      · rcases w with ⟨cs⟩
        cases cs with
        | nil => exact absurd rfl hw
        | cons c cs => simp [String.length]
    intro hc
    have := intercalate_go_length " "
      (ws.map fun word => if toLower word ∈ ["kerfuffle", "sharbert", "fornax"] then "****" else word)
      (if toLower w ∈ ["kerfuffle", "sharbert", "fornax"] then "****" else w)
    rw [hc] at this
    have h0 : ("" : String).length = 0 := rfl
    rw [h0] at this
    omega

/-! ## Claims -/

/-- C1 (the code departs from the claim): registering `a@example.com` a second time
makes `CreateUser` return the error built by `fmt.Errorf`, which is not
`ErrAlreadyExists` under `errors.Is`, so `HandlePostUser` answers 500 "Couldn't
create user" and, whatever the `auth` package does, never 409. -/
theorem CreateUser_duplicate_not_ErrAlreadyExists :
    CreateUser storeA "a@example.com" "h2"
        = (.error (.Errorf "user with Email a@example.com is already exists"), storeA) ∧
      errorsIs (.Errorf "user with Email a@example.com is already exists")
        .ErrAlreadyExists = false ∧
      HandlePostUser sampleAuth storeA (some ⟨"a@example.com", "secret123"⟩)
        = (⟨StatusInternalServerError, .errorResponse "Couldn't create user"⟩, storeA) ∧
      ∀ auth : Auth,
        (HandlePostUser auth storeA (some ⟨"a@example.com", "secret123"⟩)).1.code
          = StatusInternalServerError := by
  refine ⟨by decide, by decide, by decide, fun auth => ?_⟩
  have hs : storeA.disk.Users.get? 1 = some ⟨1, "a@example.com", "h1", false⟩ := by decide
  unfold HandlePostUser
  simp only [show ¬ ("a@example.com" = "") by decide, show ¬ ("secret123" = "") by decide,
    if_false]
  cases hh : auth.HashPassword "secret123" with
  | error e => simp [respondWithError, respondWithJSON]
  | ok hashed =>
    simp only [CreateUser_existing_email storeA "a@example.com" hashed 1 _ (by decide) hs rfl]
    simp [errorsIs, respondWithError, respondWithJSON]

/-- C2 (the code departs from the claim): after registering `a@example.com` and
`b@example.com`, `UpdateUser(2, "a@example.com", _)` succeeds, and the reachable
document it leaves has two distinct records, 1 and 2, with the same email. -/
theorem UpdateUser_breaks_email_uniqueness :
    (UpdateUser storeAB 2 "a@example.com" "h3").1 = .ok ⟨2, "a@example.com", "h3", false⟩ ∧
      (UpdateUser storeAB 2 "a@example.com" "h3").2.disk.Users.get? 1
        = some ⟨1, "a@example.com", "h1", false⟩ ∧
      (UpdateUser storeAB 2 "a@example.com" "h3").2.disk.Users.get? 2
        = some ⟨2, "a@example.com", "h3", false⟩ ∧
      Reach (UpdateUser storeAB 2 "a@example.com" "h3").2.disk [2, 1] ∧
      ¬ EmailsUnique (UpdateUser storeAB 2 "a@example.com" "h3").2.disk := by
  refine ⟨by decide, by decide, by decide, ?_, ?_⟩
  · have h1 := Reach.create emptyDoc [] true true "a@example.com" "h1" Reach.empty
    have h2 := Reach.create _ _ true true "b@example.com" "h2" h1
    exact Reach.update _ _ true true 2 "a@example.com" "h3" h2
  · intro h
    have := h 1 2 _ _ (by decide : _ = some ⟨1, "a@example.com", "h1", false⟩)
      (by decide : _ = some ⟨2, "a@example.com", "h3", false⟩) rfl
    exact absurd this (by decide)

/-- C7: on a store whose file can be read and written, `UpdateUser` with an id that
is not stored fails with `ErrNotExist` and leaves the store as it was; with a
stored id it succeeds, the returned user is the stored one with `Email` and
`HashedPassword` overwritten and `ID` and `IsChirpyRed` kept, that user is what is
stored under the id afterwards, and every other user record, the chirps and the
revocations are untouched. -/
theorem UpdateUser_contract (db : DB) (id : Int) (newEmail newHashedPassword : String)
    (hr : db.readOk = true) (hw : db.writeOk = true) :
    (db.disk.Users.get? id = none →
        UpdateUser db id newEmail newHashedPassword = (.error .ErrNotExist, db)) ∧
      (∀ old, db.disk.Users.get? id = some old →
        (UpdateUser db id newEmail newHashedPassword).1
            = .ok ⟨old.ID, newEmail, newHashedPassword, old.IsChirpyRed⟩ ∧
          (UpdateUser db id newEmail newHashedPassword).2.disk.Users.get? id
            = some ⟨old.ID, newEmail, newHashedPassword, old.IsChirpyRed⟩ ∧
          (∀ k, k ≠ id →
            (UpdateUser db id newEmail newHashedPassword).2.disk.Users.get? k
              = db.disk.Users.get? k) ∧
          (UpdateUser db id newEmail newHashedPassword).2.disk.Chirps = db.disk.Chirps ∧
          (UpdateUser db id newEmail newHashedPassword).2.disk.Revocations
            = db.disk.Revocations) := by
  constructor
  · intro hn
    simp [UpdateUser, loadDB, hr, hn]
  · intro old ho
    have h1 : (UpdateUser db id newEmail newHashedPassword).1
        = .ok ⟨old.ID, newEmail, newHashedPassword, old.IsChirpyRed⟩ := by
      simp [UpdateUser, loadDB, writeDB, hr, hw, ho]
    obtain ⟨old', ho', -, h2⟩ := UpdateUser_ok db id newEmail newHashedPassword _ h1
    refine ⟨h1, ?_, ?_, ?_, ?_⟩
    · rw [h2]; exact GoMap.get?_set_self _ _ _
    · intro k hk
      rw [h2]; exact GoMap.get?_set_ne _ _ _ _ hk
    · rw [h2]; rfl
    · rw [h2]; rfl

/-- Witness for C7 on the store holding `a@example.com` under ID 1: updating ID 1
succeeds and overwrites both fields, updating ID 7 fails with `ErrNotExist`. -/
theorem UpdateUser_contract_witness :
    (UpdateUser storeA 1 "new@example.com" "h9").1
        = .ok ⟨1, "new@example.com", "h9", false⟩ ∧
      UpdateUser storeA 7 "new@example.com" "h9" = (.error .ErrNotExist, storeA) :=
  ⟨((UpdateUser_contract storeA 1 "new@example.com" "h9" (by decide) (by decide)).2
      ⟨1, "a@example.com", "h1", false⟩ (by decide)).1,
    (UpdateUser_contract storeA 7 "new@example.com" "h9" (by decide) (by decide)).1
      (by decide)⟩

/-- C8: on a store whose file can be read and written, `UpgradeChirpyRed` with a
stored id succeeds and stores the user with `IsChirpyRed` set; a second call with
the same id succeeds too, returns the same user and leaves the store exactly as
the first call left it.  With an id that is not stored it fails with `ErrNotExist`
and leaves the store as it was. -/
theorem UpgradeChirpyRed_idempotent (db : DB) (id : Int)
    (hr : db.readOk = true) (hw : db.writeOk = true) :
    (∀ old, db.disk.Users.get? id = some old →
        (UpgradeChirpyRed db id).1 = .ok ⟨old.ID, old.Email, old.HashedPassword, true⟩ ∧
          (UpgradeChirpyRed db id).2.disk.Users.get? id
            = some ⟨old.ID, old.Email, old.HashedPassword, true⟩ ∧
          UpgradeChirpyRed (UpgradeChirpyRed db id).2 id
            = (.ok ⟨old.ID, old.Email, old.HashedPassword, true⟩, (UpgradeChirpyRed db id).2)) ∧
      (db.disk.Users.get? id = none → UpgradeChirpyRed db id = (.error .ErrNotExist, db)) := by
  constructor
  · intro old ho
    have h1 : (UpgradeChirpyRed db id).1
        = .ok ⟨old.ID, old.Email, old.HashedPassword, true⟩ := by
      simp [UpgradeChirpyRed, loadDB, writeDB, hr, hw, ho]
    obtain ⟨old', ho', -, h2⟩ := UpgradeChirpyRed_ok db id _ h1
    have h3 : (UpgradeChirpyRed db id).2.disk.Users.get? id
        = some ⟨old.ID, old.Email, old.HashedPassword, true⟩ := by
      rw [h2]; exact GoMap.get?_set_self _ _ _
    refine ⟨h1, h3, ?_⟩
    have hr' : (UpgradeChirpyRed db id).2.readOk = true := by rw [h2]; exact hr
    have hw' : (UpgradeChirpyRed db id).2.writeOk = true := by rw [h2]; exact hw
    have h4 : (UpgradeChirpyRed (UpgradeChirpyRed db id).2 id).1
        = .ok ⟨old.ID, old.Email, old.HashedPassword, true⟩ := by
      generalize UpgradeChirpyRed db id = res at h3 hr' hw'
      simp [UpgradeChirpyRed, loadDB, writeDB, hr', hw', h3]
    obtain ⟨old2, -, -, h5⟩ := UpgradeChirpyRed_ok _ id _ h4
    refine Prod.ext h4 ?_
    rw [h5]
    show ((UpgradeChirpyRed db id).2).withUsers _ = _
    rw [h2]
    simp [DB.withUsers, GoMap.set_set]
  · intro hn
    simp [UpgradeChirpyRed, loadDB, hr, hn]

/-- Witness for C8 on the store holding `a@example.com` under ID 1: the first
upgrade of ID 1 sets the flag and the second changes nothing. -/
theorem UpgradeChirpyRed_idempotent_witness :
    (UpgradeChirpyRed storeA 1).1 = .ok ⟨1, "a@example.com", "h1", true⟩ ∧
      UpgradeChirpyRed (UpgradeChirpyRed storeA 1).2 1
        = (.ok ⟨1, "a@example.com", "h1", true⟩, (UpgradeChirpyRed storeA 1).2) :=
  ⟨((UpgradeChirpyRed_idempotent storeA 1 (by decide) (by decide)).1
      ⟨1, "a@example.com", "h1", false⟩ (by decide)).1,
    ((UpgradeChirpyRed_idempotent storeA 1 (by decide) (by decide)).1
      ⟨1, "a@example.com", "h1", false⟩ (by decide)).2.2⟩

/-- C4: on a store whose file can be read, (1) if the file can also be written and
no stored user has `email`, then `CreateUser(email, h)` succeeds with a user whose
`Email` is `email`, `HashedPassword` is `h` and `IsChirpyRed` is false, and
`GetUserByEmail(email)` on the resulting store returns exactly that user (same
ID), in whatever order the map is iterated; (2) `GetUserByEmail(email)` fails with
`ErrNotExist` exactly when no stored user has `email`. -/
theorem CreateUser_then_GetUserByEmail (db : DB) (email h : String)
    (hr : db.readOk = true) :
    (db.writeOk = true → (∀ k u, db.disk.Users.get? k = some u → u.Email ≠ email) →
        ∃ user, (CreateUser db email h).1 = .ok user ∧
          user.Email = email ∧ user.HashedPassword = h ∧ user.IsChirpyRed = false ∧
          GetUserByEmail (CreateUser db email h).2 email = .ok user ∧
          ∀ db' : DB, db'.readOk = true →
            db'.disk.Users.entries.Perm (CreateUser db email h).2.disk.Users.entries →
            GetUserByEmail db' email = .ok user) ∧
      (GetUserByEmail db email = .error .ErrNotExist ↔
        ∀ k u, db.disk.Users.get? k = some u → u.Email ≠ email) := by
  constructor
  · intro hw hfresh
    have hnone : userExists email db.disk.Users = none := by
      unfold userExists
      rw [rangeFindEmail_eq_none_iff]
      intro e he
      exact hfresh e.1 e.2 ((GoMap.get?_eq_some_iff _ _ _).mpr he)
    have h1 : (CreateUser db email h).1
        = .ok ⟨(db.disk.Users.len : Int) + 1, email, h, false⟩ := by
      simp [CreateUser, loadDB, writeDB, hr, hw, hnone]
    obtain ⟨-, -, -, -, h2⟩ := CreateUser_ok db email h _ h1
    have key : ∀ l : List (Int × User),
        l.Perm (CreateUser db email h).2.disk.Users.entries →
        rangeFindEmail email l = some ⟨(db.disk.Users.len : Int) + 1, email, h, false⟩ := by
      intro l hl
      rw [h2] at hl
      apply rangeFindEmail_unique
      · refine ⟨((db.disk.Users.len : Int) + 1,
          ⟨(db.disk.Users.len : Int) + 1, email, h, false⟩), ?_, rfl⟩
        rw [hl.mem_iff]
        exact GoMap.mem_of_lookup _ _ _ (GoMap.lookup_setEntries_self _ _ _)
      · intro e he hm
        rw [hl.mem_iff] at he
        rcases GoMap.mem_setEntries _ _ _ db.disk.Users.nodup e he with h3 | ⟨h3, -⟩
        · rw [h3]
        · exact absurd hm (hfresh e.1 e.2 ((GoMap.get?_eq_some_iff _ _ _).mpr h3))
    refine ⟨_, h1, rfl, rfl, rfl, ?_, ?_⟩
    · have hr' : (CreateUser db email h).2.readOk = true := by rw [h2]; exact hr
      simp [GetUserByEmail, loadDB, hr', key _ (List.Perm.refl _)]
    · intro db' hr' hp
      simp [GetUserByEmail, loadDB, hr', key _ hp]
  · unfold GetUserByEmail loadDB
    simp only [hr, if_true]
    constructor
    · intro hg k u hk
      cases hf : rangeFindEmail email db.disk.Users.entries with
      | some v => simp [hf] at hg
      | none =>
        exact (rangeFindEmail_eq_none_iff _ _).mp hf (k, u) ((GoMap.get?_eq_some_iff _ _ _).mp hk)
    · intro hall
      have hf : rangeFindEmail email db.disk.Users.entries = none := by
        rw [rangeFindEmail_eq_none_iff]
        intro e he
        exact hall e.1 e.2 ((GoMap.get?_eq_some_iff _ _ _).mpr he)
      simp [hf]

/-- Witness for C4 on the store holding only `a@example.com`: registering
`b@example.com` and looking it up returns the new user, ID 2. -/
theorem CreateUser_then_GetUserByEmail_witness :
    ∃ user, (CreateUser storeA "b@example.com" "h2").1 = .ok user ∧
      user.Email = "b@example.com" ∧ user.HashedPassword = "h2" ∧
      user.IsChirpyRed = false ∧
      GetUserByEmail (CreateUser storeA "b@example.com" "h2").2 "b@example.com" = .ok user ∧
      ∀ db' : DB, db'.readOk = true →
        db'.disk.Users.entries.Perm (CreateUser storeA "b@example.com" "h2").2.disk.Users.entries →
        GetUserByEmail db' "b@example.com" = .ok user :=
  (CreateUser_then_GetUserByEmail storeA "b@example.com" "h2" (by decide)).1 (by decide)
    (by
      intro k u hk
      have hmem := (GoMap.get?_eq_some_iff _ _ _).mp hk
      have : storeA.disk.Users.entries = [(1, ⟨1, "a@example.com", "h1", false⟩)] := by decide
      rw [this] at hmem
      simp at hmem
      rw [hmem.2]
      decide)

/-- C3: in every document reachable from the empty one by `CreateUser`,
`UpdateUser` and `UpgradeChirpyRed` calls, a successful `CreateUser` returns the
ID `len(users) + 1`; that ID is positive, is not a key of the user map, is greater
than every ID handed out before and than every stored key and stored `ID` field;
the new record is stored under its own ID; and every user stored before is still
stored, unchanged, under the same key. -/
theorem CreateUser_assigns_next_id (d : DBStructure) (ids : List Int) (hreach : Reach d ids)
    (r w : Bool) (email hashedPassword : String) (user : User)
    (hs : (CreateUser ⟨d, r, w⟩ email hashedPassword).1 = .ok user) :
    user.ID = (d.Users.len : Int) + 1 ∧ 0 < user.ID ∧ d.Users.get? user.ID = none ∧
      (∀ i ∈ ids, i < user.ID) ∧
      (∀ k u, d.Users.get? k = some u → k < user.ID ∧ u.ID < user.ID) ∧
      (CreateUser ⟨d, r, w⟩ email hashedPassword).2.disk.Users.get? user.ID = some user ∧
      (∀ k u, d.Users.get? k = some u →
        (CreateUser ⟨d, r, w⟩ email hashedPassword).2.disk.Users.get? k = some u) := by
  obtain ⟨h1, h2, h3⟩ := hreach.dense
  obtain ⟨-, -, -, hu, hdb⟩ := CreateUser_ok _ _ _ user hs
  have hid : user.ID = (d.Users.len : Int) + 1 := by rw [hu]
  have hnone : d.Users.get? ((d.Users.len : Int) + 1) = none := by
    cases hg : d.Users.get? ((d.Users.len : Int) + 1) with
    | none => rfl
    | some v =>
      have := (h1 ((d.Users.len : Int) + 1)).mp (by rw [hg]; rfl)
      omega
  have hkey : ∀ k u, d.Users.get? k = some u → 1 ≤ k ∧ k ≤ (d.Users.len : Int) :=
    fun k u hk => (h1 k).mp (by rw [hk]; rfl)
  refine ⟨hid, by omega, by rw [hid]; exact hnone, fun i hi => ?_, fun k u hk => ?_, ?_,
    fun k u hk => ?_⟩
  · have := h3 i hi
    omega
  · have := hkey k u hk
    have := h2 k u hk
    omega
  · rw [hdb, hid]
    exact GoMap.get?_set_self _ _ _
  · rw [hdb]
    have := hkey k u hk
    show (d.Users.set ((d.Users.len : Int) + 1) user).get? k = some u
    rw [GoMap.get?_set_ne _ _ _ _ (by omega)]
    exact hk

/-- Witness for C3: the document holding `a@example.com` is reachable, and
registering `b@example.com` there hands out ID 2. -/
theorem CreateUser_assigns_next_id_witness :
    Reach storeA.disk [1] ∧
      (CreateUser storeA "b@example.com" "h2").1 = .ok ⟨2, "b@example.com", "h2", false⟩ ∧
      (2 : Int) = (storeA.disk.Users.len : Int) + 1 ∧ (0 : Int) < 2 ∧
      storeA.disk.Users.get? 2 = none ∧ (∀ i ∈ [(1 : Int)], i < 2) ∧
      (CreateUser storeA "b@example.com" "h2").2.disk.Users.get? 2
        = some ⟨2, "b@example.com", "h2", false⟩ :=
  have hreach : Reach storeA.disk [1] :=
    Reach.create emptyDoc [] true true "a@example.com" "h1" Reach.empty
  have h := CreateUser_assigns_next_id storeA.disk [1] hreach
    true true "b@example.com" "h2" ⟨2, "b@example.com", "h2", false⟩ (by decide)
  ⟨hreach, by decide, h.1, h.2.1, h.2.2.1, h.2.2.2.1, h.2.2.2.2.2.1⟩

/-- C5: on a store whose file can be read, for a login request that decodes to a
non-empty email and password, the email being that of a stored user: there is a
stored user with that email, the one `GetUserByEmail` returns, such that (1) when
the password check against that user's hash fails, `HandleLogin` answers 401
"Invalid password", a body without tokens; (2) when the check succeeds and both
tokens are signed, it answers 200 with the access token made for that user's ID
with a lifetime of one hour and the refresh token made for that user's ID with a
lifetime of 60 days. -/
theorem HandleLogin_contract (auth : Auth) (db : DB) (jwtSecret : String)
    (params : UserParameters) (hr : db.readOk = true) (he : params.Email ≠ "")
    (hp : params.Password ≠ "")
    (hst : ∃ k u, db.disk.Users.get? k = some u ∧ u.Email = params.Email) :
    ∃ k user, db.disk.Users.get? k = some user ∧ user.Email = params.Email ∧
      GetUserByEmail db params.Email = .ok user ∧
      (∀ e, auth.CheckPasswordHash params.Password user.HashedPassword = .error e →
        HandleLogin auth db jwtSecret (some params)
            = ⟨StatusUnauthorized, .errorResponse "Invalid password"⟩ ∧
          (HandleLogin auth db jwtSecret (some params)).payload.tokens = []) ∧
      (∀ accessToken refreshToken,
        auth.CheckPasswordHash params.Password user.HashedPassword = .ok () →
        auth.MakeJWT user.ID jwtSecret .TokenTypeAccess Hour = .ok accessToken →
        auth.MakeJWT user.ID jwtSecret .TokenTypeRefresh (60 * (24 * Hour)) = .ok refreshToken →
        HandleLogin auth db jwtSecret (some params)
            = ⟨StatusOK, .login ⟨user.ID, user.Email, "", user.IsChirpyRed⟩
                accessToken refreshToken⟩ ∧
          (HandleLogin auth db jwtSecret (some params)).payload.tokens
            = [accessToken, refreshToken]) := by
  obtain ⟨k0, u0, hk0, hu0⟩ := hst
  obtain ⟨user, hf⟩ := rangeFindEmail_isSome params.Email db.disk.Users.entries (k0, u0)
    ((GoMap.get?_eq_some_iff _ _ _).mp hk0) hu0
  obtain ⟨k, hk, hke⟩ := rangeFindEmail_some _ _ _ hf
  have hget : GetUserByEmail db params.Email = .ok user := by
    simp [GetUserByEmail, loadDB, hr, hf]
  have hacc : ((60 * 60 : Int)) * Second = Hour := by decide
  have href : ((60 * 60 * 24 * 60 : Int)) * Second = 60 * (24 * Hour) := by decide
  refine ⟨k, user, (GoMap.get?_eq_some_iff _ _ _).mpr hk, hke, hget, ?_, ?_⟩
  · intro e hc
    have : HandleLogin auth db jwtSecret (some params)
        = ⟨StatusUnauthorized, .errorResponse "Invalid password"⟩ := by
      simp [HandleLogin, he, hp, hget, hc, respondWithError, respondWithJSON]
    rw [this]
    exact ⟨rfl, rfl⟩
  · intro accessToken refreshToken hc ha hrf
    have : HandleLogin auth db jwtSecret (some params)
        = ⟨StatusOK, .login ⟨user.ID, user.Email, "", user.IsChirpyRed⟩
            accessToken refreshToken⟩ := by
      simp only [HandleLogin, he, hp, hget, hc, if_false, hacc, href, ha, hrf, respondWithJSON]
    rw [this]
    exact ⟨rfl, rfl⟩

/-- Witness for C5 on the store where `a@example.com` registered with `secret123`:
the right password is answered 200 with both tokens, a wrong one 401. -/
theorem HandleLogin_contract_witness :
    HandleLogin sampleAuth storeLogin "key" (some ⟨"a@example.com", "secret123"⟩)
        = ⟨StatusOK, .login ⟨1, "a@example.com", "", false⟩ "access-token" "refresh-token"⟩ ∧
      HandleLogin sampleAuth storeLogin "key" (some ⟨"a@example.com", "letmein"⟩)
        = ⟨StatusUnauthorized, .errorResponse "Invalid password"⟩ := by
  have hu : GetUserByEmail storeLogin "a@example.com"
      = .ok ⟨1, "a@example.com", "hashed:secret123", false⟩ := by decide
  constructor
  · obtain ⟨k, user, -, -, hg, -, h2⟩ :=
      HandleLogin_contract sampleAuth storeLogin "key" ⟨"a@example.com", "secret123"⟩
        (by decide) (by decide) (by decide)
        ⟨1, ⟨1, "a@example.com", "hashed:secret123", false⟩, by decide, rfl⟩
    rw [hu] at hg
    cases hg
    exact (h2 "access-token" "refresh-token" rfl rfl rfl).1
  · obtain ⟨k, user, -, -, hg, h1, -⟩ :=
      HandleLogin_contract sampleAuth storeLogin "key" ⟨"a@example.com", "letmein"⟩
        (by decide) (by decide) (by decide)
        ⟨1, ⟨1, "a@example.com", "hashed:secret123", false⟩, by decide, rfl⟩
    rw [hu] at hg
    cases hg
    exact (h1 "mismatch" rfl).1

/-- C6: (1) on a store whose file can be read, for a delete request whose `id`
parameter parses to the key of a stored chirp and whose bearer token validates to
a subject that parses to a user ID other than the chirp's `AuthorID`,
`HandleDeleteChirp` answers 403 "You can't delete this chirp", its only store call
is `GetChirp`, and the store is left as it was; (2) on every store and request,
`DeleteChirp` is called only for the chirp that `GetChirp` returned and only when
the validated subject parses to that chirp's `AuthorID`. -/
theorem HandleDeleteChirp_non_author (auth : Auth) (db : DB) (jwtSecret : String)
    (chirpIDString : String) (header : Header) :
    (∀ chirpID token subject userID dbChirp,
        db.readOk = true → Atoi chirpIDString = some chirpID →
        auth.GetBearerToken header = .ok token →
        auth.ValidateJWT token jwtSecret = .ok subject → Atoi subject = some userID →
        db.disk.Chirps.get? chirpID = some dbChirp → dbChirp.AuthorID ≠ userID →
        HandleDeleteChirp auth db jwtSecret chirpIDString header
          = ⟨⟨StatusForbidden, .errorResponse "You can't delete this chirp"⟩, db,
              [.GetChirp chirpID]⟩) ∧
      (∀ id, StoreCall.DeleteChirp id ∈
          (HandleDeleteChirp auth db jwtSecret chirpIDString header).calls →
        ∃ token subject dbChirp, Atoi chirpIDString = some id ∧
          auth.GetBearerToken header = .ok token ∧
          auth.ValidateJWT token jwtSecret = .ok subject ∧
          GetChirp db id = .ok dbChirp ∧ Atoi subject = some dbChirp.AuthorID) := by
  constructor
  · intro chirpID token subject userID dbChirp hr hid ht hv hu hc hne
    have hg : GetChirp db chirpID = .ok dbChirp := by
      simp [GetChirp, loadDB, hr, hc]
    simp [HandleDeleteChirp, hid, ht, hv, hu, hg, hne, respondWithError, respondWithJSON]
  · intro id hmem
    unfold HandleDeleteChirp at hmem
    cases hid : Atoi chirpIDString with
    | none => simp [hid] at hmem
    | some chirpID =>
      cases ht : auth.GetBearerToken header with
      | error e => simp [hid, ht] at hmem
      | ok token =>
        cases hv : auth.ValidateJWT token jwtSecret with
        | error e => simp [hid, ht, hv] at hmem
        | ok subject =>
          cases hu : Atoi subject with
          | none => simp [hid, ht, hv, hu] at hmem
          | some userID =>
            cases hg : GetChirp db chirpID with
            | error e => simp [hid, ht, hv, hu, hg] at hmem
            | ok dbChirp =>
              by_cases hne : dbChirp.AuthorID = userID
              · have hcalls : id = chirpID := by
                  simp only [hid, ht, hv, hu, hg, hne, ne_eq, not_true, if_false] at hmem
                  rcases hres : DeleteChirp db chirpID with ⟨res, db'⟩
                  rw [hres] at hmem
                  cases res <;> simpa using hmem
                rw [hcalls]
                exact ⟨token, subject, dbChirp, rfl, rfl, hv, hg, by rw [hu, hne]⟩
              · simp [hid, ht, hv, hu, hg, hne] at hmem

/-- Witness for C6 on the store where user 1 posted chirp 1: a delete request for
chirp 1 carrying a token of user 2 is answered 403 and changes nothing. -/
theorem HandleDeleteChirp_non_author_witness :
    HandleDeleteChirp sampleAuth storeChirp "key" "1" [("Authorization", ["2"])]
      = ⟨⟨StatusForbidden, .errorResponse "You can't delete this chirp"⟩, storeChirp,
          [.GetChirp 1]⟩ :=
  (HandleDeleteChirp_non_author sampleAuth storeChirp "key" "1" [("Authorization", ["2"])]).1
    1 "2" "2" 2 ⟨1, "hello", 1⟩ (by decide) (by decide) rfl rfl (by decide) (by decide)
    (by decide)

/-- C9 (the claim fails on the code): on the empty store, let call A register
`a@example.com` and call B register `b@example.com`, and let both read the file
before either writes it (load A, load B, write A, write B).  Both calls return ID 1
and the store ends as if A had never run: the claimed outcome does not hold. -/
theorem CreateUser_interleaved_loses_write :
    run [.A, .B, .A, .B] ⟨.ready "a@example.com" "h1", .ready "b@example.com" "h2", emptyDB⟩
        = ⟨.done (.ok ⟨1, "a@example.com", "h1", false⟩),
            .done (.ok ⟨1, "b@example.com", "h2", false⟩),
            (CreateUser emptyDB "b@example.com" "h2").2⟩ ∧
      ¬ BothCreated
          (run [.A, .B, .A, .B]
            ⟨.ready "a@example.com" "h1", .ready "b@example.com" "h2", emptyDB⟩)
          "a@example.com" "b@example.com" := by
  have hrun : run [.A, .B, .A, .B]
      ⟨.ready "a@example.com" "h1", .ready "b@example.com" "h2", emptyDB⟩
        = ⟨.done (.ok ⟨1, "a@example.com", "h1", false⟩),
            .done (.ok ⟨1, "b@example.com", "h2", false⟩),
            (CreateUser emptyDB "b@example.com" "h2").2⟩ := by decide
  refine ⟨hrun, ?_⟩
  rw [hrun]
  rintro ⟨userA, userB, ha, hb, hne, -⟩
  simp only [Call.done.injEq, Except.ok.injEq] at ha hb
  rw [← ha, ← hb] at hne
  exact hne rfl

/-- C9 as amended: on a document reachable by `CreateUser`, `UpdateUser` and
`UpgradeChirpyRed` calls, with a readable and writable file, two `CreateUser` calls
with different emails that no stored user has, run without overlap (A's load and
write before B's load, or B's before A's), both succeed with two distinct IDs and
the final document contains both user records. -/
theorem CreateUser_serial_no_lost_write (d : DBStructure) (ids : List Int)
    (hreach : Reach d ids) (emailA hashA emailB hashB : String) (hne : emailA ≠ emailB)
    (hfA : ∀ k u, d.Users.get? k = some u → u.Email ≠ emailA)
    (hfB : ∀ k u, d.Users.get? k = some u → u.Email ≠ emailB) :
    BothCreated
        (run [.A, .A, .B, .B] ⟨.ready emailA hashA, .ready emailB hashB, ⟨d, true, true⟩⟩)
        emailA emailB ∧
      BothCreated
        (run [.B, .B, .A, .A] ⟨.ready emailA hashA, .ready emailB hashB, ⟨d, true, true⟩⟩)
        emailA emailB := by
  constructor
  · obtain ⟨u1, u2, db1, db2, hc1, hc2, hid, he1, he2, hg1, hg2⟩ :=
      CreateUser_twice d ids hreach.dense emailA hashA emailB hashB hne hfA hfB
    have hrun : run [.A, .A, .B, .B]
        ⟨.ready emailA hashA, .ready emailB hashB, ⟨d, true, true⟩⟩
          = ⟨.done (.ok u1), .done (.ok u2), db2⟩ := by
      simp only [run, List.foldl]
      rw [Sys.step_step_A, hc1, Sys.step_step_B, hc2]
    rw [hrun]
    exact ⟨u1, u2, rfl, rfl, hid, he1, he2, hg1, hg2⟩
  · obtain ⟨u1, u2, db1, db2, hc1, hc2, hid, he1, he2, hg1, hg2⟩ :=
      CreateUser_twice d ids hreach.dense emailB hashB emailA hashA (Ne.symm hne) hfB hfA
    have hrun : run [.B, .B, .A, .A]
        ⟨.ready emailA hashA, .ready emailB hashB, ⟨d, true, true⟩⟩
          = ⟨.done (.ok u2), .done (.ok u1), db2⟩ := by
      simp only [run, List.foldl]
      rw [Sys.step_step_B, hc1, Sys.step_step_A, hc2]
    rw [hrun]
    exact ⟨u2, u1, rfl, rfl, Ne.symm hid, he2, he1, hg2, hg1⟩

/-- Witness for C9 as amended, on the empty store: registering `a@example.com` and
`b@example.com` one call after the other, in either order, keeps both records. -/
theorem CreateUser_serial_no_lost_write_witness :
    BothCreated
        (run [.A, .A, .B, .B]
          ⟨.ready "a@example.com" "h1", .ready "b@example.com" "h2", emptyDB⟩)
        "a@example.com" "b@example.com" ∧
      BothCreated
        (run [.B, .B, .A, .A]
          ⟨.ready "a@example.com" "h1", .ready "b@example.com" "h2", emptyDB⟩)
        "a@example.com" "b@example.com" :=
  CreateUser_serial_no_lost_write emptyDoc [] Reach.empty
    "a@example.com" "h1" "b@example.com" "h2" (by decide)
    (by intro k u h; simp [emptyDoc, GoMap.empty, GoMap.get?, List.lookup] at h)
    (by intro k u h; simp [emptyDoc, GoMap.empty, GoMap.get?, List.lookup] at h)

/-- C10 (the code departs from the claim): the body `" "` (one space) is not empty
and is 1 byte long, so `HandlePostChirp` accepts it; `cleanBody` turns it into the
empty string whatever the case mapping; and the handler passes that empty string to
`CreateChirp`, answers 201 and leaves a chirp with an empty body in the store. -/
theorem HandlePostChirp_stores_empty_body :
    (" " : String) ≠ "" ∧ (" " : String).utf8ByteSize ≤ 140 ∧
      ∀ toLower : String → String,
        cleanBody toLower " " = "" ∧
          (HandlePostChirp sampleAuth toLower storeA "key" [("Authorization", ["1"])]
              (some " ")).calls = [.CreateChirp "" 1] ∧
          (HandlePostChirp sampleAuth toLower storeA "key" [("Authorization", ["1"])]
              (some " ")).response = ⟨StatusCreated, .chirp ⟨1, "", 1⟩⟩ ∧
          (HandlePostChirp sampleAuth toLower storeA "key" [("Authorization", ["1"])]
              (some " ")).db.disk.Chirps.get? 1 = some ⟨1, "", 1⟩ := by
  refine ⟨by decide, by decide, fun toLower => ?_⟩
  have hc : cleanBody toLower " " = "" := rfl
  have hh : HandlePostChirp sampleAuth toLower storeA "key" [("Authorization", ["1"])]
      (some " ") = ⟨⟨StatusCreated, .chirp ⟨1, "", 1⟩⟩, (CreateChirp storeA "" 1).2,
        [.CreateChirp "" 1]⟩ := by
    unfold HandlePostChirp
    simp only [hc]
    rfl
  rw [hh]
  exact ⟨hc, rfl, rfl, by decide⟩

end Chirpy
